import Mathlib

/-!
Verification of the mashru3 workspace engine (leibniz-psychology/mashru3).

This file shallowly embeds the parts of the Python source relevant to the
verified properties:

* `src/mashru3/filesystem.py` — the `softlock` context manager (cooperative,
  non-blocking, file-presence based lock) and `getPermissions` (POSIX ACL
  snapshot).
* `src/mashru3/workspace.py` — `ModificationAwareDict` (dirty tracking),
  `Workspace._writeMetadata`, `Workspace.open`, `Workspace.ensureProfile`
  (staleness check and rebuild), `decodeFailure`, `storePathToPackageName`,
  `Workspace.chdir` and `Workspace.copy`.
* `src/mashru3/cli.py` — the `docopy` command together with the embedded
  (older) `Workspace.create`/`__init__` metadata flow it relies on.

Filesystem state, process state (current working directory) and the effects
of external tools are modelled explicitly as data; fallible operations
return `Except`/`Option`; Python dictionaries are modelled as association
lists with replace-or-append insertion (preserving Python dict insertion
order and update semantics).
-/

/-! ## Cooperative softlock (filesystem.py, `softlock`)

The lock is the existence of a file at a fixed path.  `os.open` with
`O_CREAT | O_EXCL` either atomically creates the file (acquisition) or fails
with `FileExistsError`, which the source converts to `Busy`.  The single
atomic create-or-fail step is modelled as one state-transition function; a
concurrent pair of acquisitions is, by the atomicity of `O_EXCL`, some
sequential interleaving of two such steps. -/

/-- Result of one acquisition attempt of the softlock. -/
inductive LockResult where
  | acquired
  | busy
  deriving DecidableEq, Repr

/-- One acquisition attempt: `os.open(basename, O_WRONLY|O_CREAT|O_EXCL)`.
If the lock file exists the call fails (`FileExistsError` → `Busy`,
immediately, no retry); otherwise it atomically creates the file.  The input
is whether the lock file exists, the output is the new file state and the
outcome. -/
def softlockAcquire (lockFileExists : Bool) : Bool × LockResult :=
  if lockFileExists then (lockFileExists, .busy) else (true, .acquired)

/-- Filesystem world visible to the softlock release path: whether the lock
file still exists at its path, and whether its containing directory was
deleted out from under the held directory fd. -/
structure LockWorld where
  fileExists : Bool
  dirGone : Bool
  deriving DecidableEq, Repr

/-- Errors surfaced by the modelled OS calls. -/
inductive FsError where
  | fileNotFound
  deriving DecidableEq, Repr

/-- `os.unlink (basename, dir_fd=dirfd)`: fails with `FileNotFoundError`
when the containing directory was deleted or the file is already gone;
renaming the directory does not matter because the unlink goes through the
held directory fd. -/
def unlinkAt (w : LockWorld) : Except FsError LockWorld :=
  if w.dirGone then .error .fileNotFound
  else if w.fileExists then .ok { w with fileExists := false }
  else .error .fileNotFound

/-- The release path of `softlock`: close the fd, unlink the lock file via
the directory fd, close the directory fd, with `except FileNotFoundError:
pass` around the whole sequence.  Returns the world afterwards and whether
an exception escaped the release (never, for the errors that can occur
here). -/
def softlockRelease (w : LockWorld) : LockWorld × Bool :=
  match unlinkAt w with
  | .ok w2 => (w2, false)
  | .error .fileNotFound => (w, false)

/-- How the block guarded by `softlock` ended. -/
inductive BodyOutcome where
  | normal
  | raised
  deriving DecidableEq, Repr

/-- The `try: yield` / `finally:` structure of `softlock`: the release path
runs regardless of whether the guarded block completed normally or raised.
Returns the final world, whether release itself raised, and the propagated
outcome of the block. -/
def softlockExit (w : LockWorld) (outcome : BodyOutcome) :
    LockWorld × Bool × BodyOutcome :=
  let r := softlockRelease w
  (r.1, r.2, outcome)

/-! ## Dirty-tracked metadata dictionary (workspace.py,
`ModificationAwareDict` and `_writeMetadata`) -/

/-- Metadata values (YAML scalars as used by the workspace metadata). -/
inductive MVal where
  | s (v : String)
  | n (v : Nat)
  deriving DecidableEq, Repr

/-- Python `d[k] = v` on a dict modelled as an insertion-ordered association
list (at most one binding per key, as in a Python dict): replace the value
of the existing binding in place, otherwise append the new binding. -/
def listSet : List (String × MVal) → String → MVal → List (String × MVal)
  | [], k, v => [(k, v)]
  | p :: t, k, v => if p.1 = k then (k, v) :: t else p :: listSet t k v

/-- Python `d.update(other)`: fold `listSet` over the other dict's items in
their order. -/
def listUpdate (base kvs : List (String × MVal)) : List (String × MVal) :=
  kvs.foldl (fun acc p => listSet acc p.1 p.2) base

/-- Python `d[k]` / `d.get(k)` — first (only) binding of `k`. -/
def lookupKey (l : List (String × MVal)) (k : String) : Option MVal :=
  (l.find? (fun p => p.1 = k)).map Prod.snd

/-- `ModificationAwareDict`: a dict plus a `modified` flag.  Every mutating
method sets `modified := True` before delegating to the underlying dict. -/
structure MDict where
  data : List (String × MVal)
  modified : Bool
  deriving DecidableEq, Repr

/-- `__setitem__`. -/
def MDict.setItem (d : MDict) (k : String) (v : MVal) : MDict :=
  { data := listSet d.data k v, modified := true }

/-- `__delitem__` (successful path; the flag is set before the delete). -/
def MDict.delItem (d : MDict) (k : String) : MDict :=
  { data := d.data.filter (fun p => p.1 ≠ k), modified := true }

/-- `update`. -/
def MDict.update (d : MDict) (kvs : List (String × MVal)) : MDict :=
  { data := listUpdate d.data kvs, modified := true }

/-- `pop` (successful path): returns the removed value and the dict. -/
def MDict.pop (d : MDict) (k : String) : Option MVal × MDict :=
  (lookupKey d.data k,
   { data := d.data.filter (fun p => p.1 ≠ k), modified := true })

/-- `Workspace._writeMetadata`: when the document is dirty, take the
metadata lock, dump the whole document to a temporary file, rename it over
the canonical path and clear the flag; otherwise do nothing.  The second
component counts filesystem writes performed (the whole-document write, 1
when dirty, 0 otherwise). -/
def writeMetadata (d : MDict) : MDict × Nat :=
  if d.modified then ({ data := d.data, modified := false }, 1) else (d, 0)

/-! ## Profile staleness and rebuild (workspace.py, `Workspace.ensureProfile`) -/

/-- `Workspace.extraPackages`: packages that must always be installed. -/
def extraPackages : List String := ["tini"]

/-- Filesystem facts `ensureProfile` reads after `ensureGuix` returned
(guix binary profile `.config/guix/current` exists at this point; mtimes in
seconds, as naturals). -/
structure ProfileCheckState where
  guixProfileMtime : Nat
  profileExists : Bool
  profileMtime : Nat
  manifestExists : Bool
  manifestMtime : Nat
  installed : List String
  deriving DecidableEq, Repr

/-- `profilePath.lstat().st_mtime if profileExists else 0`. -/
def effProfileMtime (s : ProfileCheckState) : Nat :=
  if s.profileExists then s.profileMtime else 0

/-- `manifestPath.stat().st_mtime if manifestExists else 0`. -/
def effManifestMtime (s : ProfileCheckState) : Nat :=
  if s.manifestExists then s.manifestMtime else 0

/-- `haveExtraPackages`: the set of installed package names that are extra
packages equals the set of extra packages. -/
def haveExtraPackages (installed : List String) : Bool :=
  decide ((installed.filter (fun x => extraPackages.contains x)).toFinset
    = extraPackages.toFinset)

/-- The staleness condition of `ensureProfile` (the guard of its rebuild
branch). -/
def profileIsStale (s : ProfileCheckState) : Bool :=
  !s.profileExists
    || effManifestMtime s > effProfileMtime s
    || s.guixProfileMtime > effProfileMtime s
    || !haveExtraPackages s.installed

/-- Effect of a successful run of `guix package -p .guix-profile
--allow-collisions [-m manifest] -i tini` on the facts `ensureProfile`
cares about. -/
structure RebuildEffect where
  profileExistsAfter : Bool
  profileMtimeAfter : Nat
  installedAfter : List String
  deriving DecidableEq, Repr

/-- The success path of `ensureProfile` after `ensureGuix`: if the profile
is stale, invoke the package manager (modelled by `eff`), then — if the
profile artifact exists — force its mtime to the current time `now`
(`os.utime`, skipped when not permitted: a `PermissionError` is swallowed).
Returns the state afterwards and whether the rebuild was invoked. -/
def ensureProfileRun (s : ProfileCheckState) (eff : RebuildEffect)
    (now : Nat) (utimePermitted : Bool) : ProfileCheckState × Bool :=
  if profileIsStale s then
    let s1 : ProfileCheckState :=
      { s with profileExists := eff.profileExistsAfter,
               profileMtime := eff.profileMtimeAfter,
               installed := eff.installedAfter }
    let s2 := if eff.profileExistsAfter && utimePermitted then
        { s1 with profileMtime := now } else s1
    (s2, true)
  else (s, false)

/-! ## Failure classification (workspace.py, `decodeFailure` and
`storePathToPackageName`)

String scanning is modelled on `List Char` (the `data` of the Python
strings), where take/drop/compare reduce structurally. -/

/-- An apostrophe (kept out of string literals). -/
def squoteChar : Char := Char.ofNat 39

/-- Does `pre` occur at the start of `l`? -/
def listStartsWith (l pre : List Char) : Bool :=
  decide (l.take pre.length = pre)

/-- Does `post` occur at the end of `l`? -/
def listEndsWith (l post : List Char) : Bool :=
  decide (l.drop (l.length - post.length) = post)

/-- Python `s.split ('\n')` / the line structure `re.M` works with. -/
def splitLines : List Char → List (List Char)
  | [] => [[]]
  | c :: t =>
    match splitLines t with
    | [] => [[]]
    | l :: ls => if c = '\n' then [] :: l :: ls else (c :: l) :: ls

/-- Python `needle in hay` (contiguous substring). -/
def containsSub (needle : List Char) : List Char → Bool
  | [] => needle.isEmpty
  | c :: t => listStartsWith (c :: t) needle || containsSub needle t

/-- The fixed text before the captured derivation path in
`^guix package: error: build of \x60(/[^ \x27]+\.drv)\x27 failed$`. -/
def buildFailPre : List Char := "guix package: error: build of `".data

/-- The fixed text after the captured derivation path. -/
def buildFailPost : List Char := squoteChar :: " failed".data

/-- The manifest-load diagnostic looked for verbatim in stderr. -/
def manifestLoadErr : List Char :=
  "guix package: error: failed to load ".data
    ++ squoteChar :: ".config/guix/manifest.scm".data ++ [squoteChar]

/-- A character matched by the class `[^ \x27]` (not a space, not an
apostrophe). -/
def drvPathChar (c : Char) : Bool :=
  c ≠ ' ' && c ≠ squoteChar

/-- Whole-line match of `^guix package: error: build of
\x60(/[^ \x27]+\.drv)\x27 failed$`, returning the captured store path: the
line must be the fixed prefix text, then `/`, at least one non-space
non-quote character, `.drv` (which together form the capture), then the
fixed suffix text. -/
def matchBuildFailLine (line : List Char) : Option (List Char) :=
  if listStartsWith line buildFailPre && listEndsWith line buildFailPost
      && line.length ≥ buildFailPre.length + buildFailPost.length + 6 then
    let mid := (line.drop buildFailPre.length).take
      (line.length - buildFailPre.length - buildFailPost.length)
    if listStartsWith mid ['/'] && listEndsWith mid ".drv".data
        && mid.all drvPathChar then
      some mid
    else none
  else none

/-- `re.findall` of the build-failure pattern with `re.M` over stderr:
collect the captures of all matching lines, in order. -/
def buildFailedDrvs (stderr : String) : List String :=
  ((splitLines stderr.data).filterMap matchBuildFailLine).map String.mk

/-- `[a-z0-9]`. -/
def lowerAlnum (c : Char) : Bool :=
  (Char.ofNat 97 ≤ c && c ≤ Char.ofNat 122)
    || (Char.ofNat 48 ≤ c && c ≤ Char.ofNat 57)

/-- `[a-z0-9-]` (the capture-group class of `storePathToPackageName`). -/
def pkgNameChar (c : Char) : Bool := lowerAlnum c || c = '-'

/-- `[0-9-.]` (the version class of `storePathToPackageName`). -/
def versionChar (c : Char) : Bool :=
  (Char.ofNat 48 ≤ c && c ≤ Char.ofNat 57) || c = '-' || c = '.'

/-- After a candidate capture of length `k`, the rest of the regex
`-[0-9-.]+(\.drv)?` can match (as a prefix): a dash then at least one
version character. -/
def pkgGroupOk (t : List Char) (k : Nat) : Bool :=
  match t.drop k with
  | '-' :: c :: _ => versionChar c
  | _ => false

/-- Greedy backtracking of the capture group `([a-z0-9-]+)`: try the
longest candidate first, shrinking until the remainder matches. -/
def pkgGroupSearch (t : List Char) : Nat → Option Nat
  | 0 => none
  | k + 1 => if pkgGroupOk t (k + 1) then some (k + 1) else pkgGroupSearch t k

/-- `storePathToPackageName`: `re.match` of
`/gnu/store/[a-z0-9]+-([a-z0-9-]+)-[0-9-.]+(\.drv)?` against `p`, returning
group 1.  `none` models the `AttributeError` the source would raise on a
non-matching path (`m.group` on `None`). -/
def storePathToPackageName (p : String) : Option String :=
  let cs := p.data
  if listStartsWith cs "/gnu/store/".data then
    let rest := cs.drop 11
    let hash := rest.takeWhile lowerAlnum
    if hash.isEmpty then none
    else
      match rest.drop hash.length with
      | '-' :: t =>
        let run := (t.takeWhile pkgNameChar).length
        (pkgGroupSearch t run).map (fun k => String.mk (t.take k))
      | _ => none
  else none

/-- What `decodeFailure` does with the stderr of a failed package-manager
invocation.  Every constructor is a raise: `packageBuildFailure` and
`broken` are the classified workspace exceptions, `reraise` re-raises the
original `ExecutionFailed` unmodified, and `attrError` models the
`AttributeError` from `storePathToPackageName` on an unparseable store
path. -/
inductive FailureDecision where
  | packageBuildFailure (names : List String)
  | broken
  | reraise
  | attrError
  deriving DecidableEq, Repr

/-- `decodeFailure` (workspace.py): find all failed-derivation lines in
stderr; if any, raise `WorkspacePackageBuildFailure` with their package
names; else if the manifest-load diagnostic occurs in stderr, raise
`WorkspaceBroken`; otherwise re-raise the original exception. -/
def decodeFailure (stderr : String) : FailureDecision :=
  match buildFailedDrvs stderr with
  | [] =>
    if containsSub manifestLoadErr stderr.data then .broken
    else .reraise
  | d :: ds =>
    match (d :: ds).mapM storePathToPackageName with
    | some names => .packageBuildFailure names
    | none => .attrError

/-! ## Opening a workspace (workspace.py, `Workspace.open`) -/

/-- Result of `yaml.safe_load` on the metadata file, classified by what
`ModificationAwareDict.update` (i.e. `MutableMapping.update`) then does
with it.  An empty (or comments-only) file parses as `None`; a YAML syntax
error is `yamlError`; a top-level mapping is `mapping`; a top-level
sequence whose elements are two-element key/value sequences is `pairSeq` —
`MutableMapping.update` consumes such an iterable of pairs exactly like a
mapping, setting the keys in sequence order; every other parse (a scalar,
or a sequence with an element that is not a key/value pair) is
`badIterable`, on which `update` raises an uncaught `TypeError` or
`ValueError`. -/
inductive ParsedYaml where
  | yamlError
  | parsedNone
  | mapping (kvs : List (String × MVal))
  | pairSeq (kvs : List (String × MVal))
  | badIterable
  deriving DecidableEq, Repr

/-- What the filesystem presents to `Workspace.open`. -/
structure OpenInput where
  metaFileExists : Bool
  statPermError : Bool
  readPermError : Bool
  parsed : ParsedYaml
  deriving DecidableEq, Repr

/-- Exceptions `Workspace.open` can raise.  `invalidWorkspace` is the
classified error; `permError` is an uncaught `PermissionError` from
`open()` on a statable but unreadable file; `typeErr` stands for the
uncaught `TypeError`/`ValueError` family that `metadata.update` raises on a
parse it cannot consume (`None` from an empty file, a scalar, or a
sequence containing a non-pair element — which of the two exception types
occurs depends on the malformed shape, and the model does not distinguish
them: both are uncaught and neither is `InvalidWorkspace`). -/
inductive OpenError where
  | invalidWorkspace
  | permError
  | typeErr
  deriving DecidableEq, Repr

/-- `Workspace.resetMetadata`: the fresh default document (dirty flag is
false initially). -/
def resetMetadata (freshId : String) (stamp : Nat) (creator : String) :
    MDict :=
  { data := [("version", .n 1), ("_id", .s freshId),
             ("created", .n stamp), ("modified", .n stamp),
             ("creator", .s creator)],
    modified := false }

/-- `Workspace.open`: check the metadata file exists (a `PermissionError`
from `stat` is turned into `InvalidWorkspace`); if it does, read and parse
it (`yaml.YAMLError` → `InvalidWorkspace`), update the default metadata
with the parsed value and clear the dirty flag; a missing file is
`InvalidWorkspace`.  `MutableMapping.update` accepts both a mapping and an
iterable of key/value pairs, so both `mapping` and `pairSeq` parses
succeed; `None` and other non-consumable parses raise uncaught
(`typeErr`).  No metadata write happens on any path of `open` itself
(writes happen in `close`). -/
def openWorkspace (inp : OpenInput) (freshId : String) (stamp : Nat)
    (creator : String) : Except OpenError MDict :=
  if inp.statPermError then .error .invalidWorkspace
  else if inp.metaFileExists then
    if inp.readPermError then .error .permError
    else
      match inp.parsed with
      | .yamlError => .error .invalidWorkspace
      | .parsedNone => .error .typeErr
      | .mapping kvs =>
        .ok { data := listUpdate (resetMetadata freshId stamp creator).data
                kvs,
              modified := false }
      | .pairSeq kvs =>
        .ok { data := listUpdate (resetMetadata freshId stamp creator).data
                kvs,
              modified := false }
      | .badIterable => .error .typeErr
  else .error .invalidWorkspace

/-! ## Scoped working-directory change (workspace.py, `Workspace.chdir`)

`chdir` is a `@contextmanager` generator:

    oldWorkingDir = os.getcwd ()
    os.chdir (self.dirfd)
    yield
    try:
        os.chdir (oldWorkingDir)
    except FileNotFoundError:
        pass

The `yield` is not inside a `try`/`finally`.  When the guarded body raises,
`contextlib` throws the exception into the generator at the `yield`; the
generator unwinds without executing the restore code, and the exception
propagates. -/

/-- Semantics of one use of `with self.chdir (): body`.  Directories are
named by naturals; `cwd0` is the working directory on entry, `wsDir` the
workspace directory, `outcome` how the body ended, `oldStillExists` whether
`cwd0` still exists when the restore runs.  Result: final working directory
and whether an exception propagated out of the scope. -/
def chdirScope (cwd0 wsDir : Nat) (outcome : BodyOutcome)
    (oldStillExists : Bool) : Nat × Bool :=
  match outcome with
  | .normal => (if oldStillExists then cwd0 else wsDir, false)
  | .raised => (wsDir, true)

/-! ## Copying a workspace: metadata flows

Two implementations exist in the repository.

`Workspace.copy` (workspace.py) copies the directory with rsync and then
re-opens the copy: the copied metadata file — including `_id` — is loaded
verbatim over the fresh defaults.

`docopy` (cli.py) instead builds the destination metadata explicitly from
the source document, overriding `_id` with a freshly drawn id, and finally
writes that document into the copied directory. -/

/-- Metadata of the workspace yielded by `Workspace.copy` (workspace.py):
rsync preserves the metadata file byte for byte, and `open` updates the
fresh defaults with the loaded source document. -/
def wsCopyMeta (srcMeta : List (String × MVal)) (freshId : String)
    (stamp : Nat) (creator : String) : List (String × MVal) :=
  listUpdate (resetMetadata freshId stamp creator).data srcMeta

/-- Metadata written by `docopy` (cli.py): `meta = dict (source.metadata)`
updated with a fresh `_id`, passed through `Workspace.create` (fresh
`created`/`modified`/`creator` defaults, overridden by `meta`) and the old
`Workspace.__init__` (defaults `version=1` and another fresh `_id`,
overridden by `meta`), then dumped by `writeMetadata`. -/
def docopyMeta (srcMeta : List (String × MVal)) (freshCopyId : String)
    (stamp : Nat) (creator : String) (initFreshId : String) :
    List (String × MVal) :=
  listUpdate [("version", .n 1), ("_id", .s initFreshId)]
    (listUpdate
      [("created", .n stamp), ("modified", .n stamp),
        ("creator", .s creator)]
      (listSet srcMeta "_id" (.s freshCopyId)))

/-! ## Permission snapshot (filesystem.py, `getPermissions`, local path) -/

/-- POSIX ACL entry tags as discriminated by `getPermissions`. -/
inductive AclTag where
  | userObj
  | groupObj
  | namedUser (uid : Nat)
  | namedGroup (gid : Nat)
  | otherTag
  | maskTag
  | undefinedTag
  deriving DecidableEq, Repr

/-- One ACL entry: a tag plus the textual permset (e.g. `"rw-"`). -/
structure AclEntry where
  tag : AclTag
  permset : String
  deriving DecidableEq, Repr

/-- `fromPermset`: `str (permset).replace ('-', '')`. -/
def stripDashes (s : String) : String :=
  String.mk (s.toList.filter (fun c => c ≠ '-'))

/-- The permission snapshot returned by `getPermissions` for a local path:
owning user / owning group / named acl users / named acl groups, each a
dict from principal name to permission letters, plus the world (`other`)
bits as a separate string. -/
structure PermsSnapshot where
  user : List (String × MVal)
  group : List (String × MVal)
  aclUser : List (String × MVal)
  aclGroup : List (String × MVal)
  other : String
  deriving DecidableEq, Repr

/-- One step of the entry loop of `getPermissions`.  `ownerUid`/`ownerGid`
come from `path.lstat ()`; `uidName`/`gidName` model `getpwuid`/`getgrgid`.
Note the source's `fromUid` resolves `s.st_uid` — the file owner — even for
named-user entries, whose qualifier is ignored. -/
def getPermissionsStep (ownerUid ownerGid : Nat) (uidName gidName : Nat → String)
    (perms : PermsSnapshot) (e : AclEntry) : PermsSnapshot :=
  match e.tag with
  | .userObj =>
    { perms with user := (listSet perms.user (uidName ownerUid)
        (.s (stripDashes e.permset ++ "Tt"))) }
  | .groupObj =>
    { perms with group := (listSet perms.group (gidName ownerGid)
        (.s (stripDashes e.permset))) }
  | .namedUser _ =>
    { perms with aclUser := (listSet perms.aclUser (uidName ownerUid)
        (.s (stripDashes e.permset))) }
  | .namedGroup q =>
    { perms with aclGroup := (listSet perms.aclGroup (gidName q)
        (.s (stripDashes e.permset))) }
  | .otherTag => { perms with other := stripDashes e.permset }
  | .maskTag => perms
  | .undefinedTag => perms

/-- `getPermissions` on a local path: fold the entry loop over the ACL,
starting from the empty snapshot. -/
def getPermissions (ownerUid ownerGid : Nat) (uidName gidName : Nat → String)
    (entries : List AclEntry) : PermsSnapshot :=
  entries.foldl (getPermissionsStep ownerUid ownerGid uidName gidName)
    { user := [], group := [], aclUser := [], aclGroup := [], other := "" }

/-- Concrete stderr of a failed rebuild naming two failed derivations
(used to instantiate the classification theorem). -/
def exFailStderr : String :=
  String.mk ("something".data
    ++ '\n' :: (buildFailPre ++ "/gnu/store/abcd123-foo-1.0.drv".data
      ++ buildFailPost)
    ++ '\n' :: (buildFailPre ++ "/gnu/store/zz9x-bar-2.3.1.drv".data
      ++ buildFailPost)
    ++ '\n' :: "guix package: error: build failed".data)

/-! ## Association-list lemmas -/

theorem lookupKey_cons (p : String × MVal) (t : List (String × MVal))
    (k : String) :
    lookupKey (p :: t) k = if p.1 = k then some p.2 else lookupKey t k := by
  by_cases h : p.1 = k <;> simp [lookupKey, List.find?, h]

theorem lookupKey_listSet_self (l : List (String × MVal)) (k : String)
    (v : MVal) : lookupKey (listSet l k v) k = some v := by
  induction l with
  | nil => simp [listSet, lookupKey, List.find?]
  | cons p t ih =>
    by_cases h : p.1 = k
    · simp [listSet, h, lookupKey_cons]
    · simp [listSet, h, lookupKey_cons, ih]

theorem lookupKey_listSet_ne (l : List (String × MVal)) (k k2 : String)
    (v : MVal) (h : k2 ≠ k) :
    lookupKey (listSet l k v) k2 = lookupKey l k2 := by
  have hks : k ≠ k2 := fun hh => h hh.symm
  induction l with
  | nil => simp [listSet, lookupKey_cons, hks, lookupKey, List.find?]
  | cons p t ih =>
    by_cases hp : p.1 = k
    · have hp2 : p.1 ≠ k2 := hp ▸ hks
      simp [listSet, hp, lookupKey_cons, hks, hp2]
    · simp [listSet, hp, lookupKey_cons, ih]

theorem mem_keys_listSet (l : List (String × MVal)) (k k2 : String)
    (v : MVal) :
    k2 ∈ (listSet l k v).map Prod.fst ↔ k2 = k ∨ k2 ∈ l.map Prod.fst := by
  induction l with
  | nil => simp [listSet]
  | cons p t ih =>
    by_cases hp : p.1 = k
    · subst hp
      simp [listSet]
    · simp [listSet, hp, ih]
      tauto

theorem nodup_keys_listSet (l : List (String × MVal)) (k : String) (v : MVal)
    (h : (l.map Prod.fst).Nodup) :
    ((listSet l k v).map Prod.fst).Nodup := by
  induction l with
  | nil => simp [listSet]
  | cons p t ih =>
    simp only [List.map_cons, List.nodup_cons] at h
    by_cases hp : p.1 = k
    · subst hp
      simpa [listSet] using h
    · simp only [listSet, hp, if_false, List.map_cons, List.nodup_cons]
      refine ⟨fun hc => ?_, ih h.2⟩
      rcases (mem_keys_listSet t k p.1 v).1 hc with h1 | h1
      · exact hp h1
      · exact h.1 h1

theorem lookupKey_listUpdate_not_mem (base kvs : List (String × MVal))
    (k : String) (h : k ∉ kvs.map Prod.fst) :
    lookupKey (listUpdate base kvs) k = lookupKey base k := by
  induction kvs generalizing base with
  | nil => simp [listUpdate]
  | cons p t ih =>
    simp only [List.map_cons, List.mem_cons, not_or] at h
    have step : listUpdate base (p :: t) = listUpdate (listSet base p.1 p.2) t :=
      rfl
    rw [step, ih _ h.2, lookupKey_listSet_ne _ _ _ _ h.1]

theorem lookupKey_listUpdate_mem (base kvs : List (String × MVal))
    (k : String) (hnd : (kvs.map Prod.fst).Nodup)
    (h : k ∈ kvs.map Prod.fst) :
    lookupKey (listUpdate base kvs) k = lookupKey kvs k := by
  induction kvs generalizing base with
  | nil => simp at h
  | cons p t ih =>
    simp only [List.map_cons, List.nodup_cons] at hnd
    have step : listUpdate base (p :: t) = listUpdate (listSet base p.1 p.2) t :=
      rfl
    by_cases hk : k ∈ t.map Prod.fst
    · have hne : p.1 ≠ k := fun hc => hnd.1 (hc ▸ hk)
      rw [step, ih _ hnd.2 hk, lookupKey_cons]
      simp [hne]
    · have hkp : k = p.1 := by
        simp only [List.map_cons, List.mem_cons] at h
        tauto
      subst hkp
      rw [step, lookupKey_listUpdate_not_mem _ _ _ hk,
        lookupKey_listSet_self, lookupKey_cons]
      simp

theorem mem_keys_listUpdate_left (base kvs : List (String × MVal))
    (k : String) (h : k ∈ base.map Prod.fst) :
    k ∈ (listUpdate base kvs).map Prod.fst := by
  induction kvs generalizing base with
  | nil => simpa [listUpdate] using h
  | cons p t ih =>
    exact ih _ ((mem_keys_listSet base p.1 k p.2).2 (Or.inr h))

theorem mem_keys_listUpdate_right (base kvs : List (String × MVal))
    (k : String) (h : k ∈ kvs.map Prod.fst) :
    k ∈ (listUpdate base kvs).map Prod.fst := by
  induction kvs generalizing base with
  | nil => simp at h
  | cons p t ih =>
    simp only [List.map_cons, List.mem_cons] at h
    rcases h with h | h
    · exact mem_keys_listUpdate_left _ t k
        ((mem_keys_listSet base p.1 k p.2).2 (Or.inl h))
    · exact ih _ h

theorem nodup_keys_listUpdate (base kvs : List (String × MVal))
    (h : (base.map Prod.fst).Nodup) :
    ((listUpdate base kvs).map Prod.fst).Nodup := by
  induction kvs generalizing base with
  | nil => simpa [listUpdate] using h
  | cons p t ih =>
    exact ih _ (nodup_keys_listSet base p.1 p.2 h)

/-! ## Staleness lemmas -/

theorem haveExtraPackages_iff (installed : List String) :
    haveExtraPackages installed = true ↔
      ∀ p ∈ extraPackages, p ∈ installed := by
  unfold haveExtraPackages
  rw [decide_eq_true_iff]
  constructor
  · intro h p hp
    have hmem : p ∈ (installed.filter
        (fun x => extraPackages.contains x)).toFinset := by
      rw [h]
      exact List.mem_toFinset.2 hp
    have := List.mem_toFinset.1 hmem
    exact (List.mem_filter.1 this).1
  · intro h
    apply Finset.ext
    intro x
    simp only [List.mem_toFinset, List.mem_filter]
    constructor
    · intro hx
      have := hx.2
      simpa using this
    · intro hx
      exact ⟨h x hx, by simpa using hx⟩

theorem profileIsStale_iff (s : ProfileCheckState) :
    profileIsStale s = true ↔
      s.profileExists = false
      ∨ effManifestMtime s > effProfileMtime s
      ∨ s.guixProfileMtime > effProfileMtime s
      ∨ ∃ p ∈ extraPackages, p ∉ s.installed := by
  unfold profileIsStale
  simp only [Bool.or_eq_true, Bool.not_eq_true', decide_eq_true_iff]
  constructor
  · rintro (((h | h) | h) | h)
    · exact Or.inl h
    · exact Or.inr (Or.inl h)
    · exact Or.inr (Or.inr (Or.inl h))
    · refine Or.inr (Or.inr (Or.inr ?_))
      by_contra hc
      push_neg at hc
      have : ∀ p ∈ extraPackages, p ∈ s.installed := hc
      rw [← haveExtraPackages_iff] at this
      simp [this] at h
  · rintro (h | h | h | ⟨p, hp, hnp⟩)
    · exact Or.inl (Or.inl (Or.inl h))
    · exact Or.inl (Or.inl (Or.inr h))
    · exact Or.inl (Or.inr h)
    · refine Or.inr ?_
      by_contra hc
      rw [Bool.not_eq_false, haveExtraPackages_iff] at hc
      exact hnp (hc p hp)

/-! ## Claim theorems -/

/-- C1.  `ensureProfile` decides the profile is stale — and invokes the
package-manager rebuild — if and only if the profile artifact is absent, or
the manifest mtime is strictly newer than the profile mtime, or the guix
binary profile (`.config/guix/current`) mtime is strictly newer than the
profile mtime, or some mandatory baseline package is missing from the
installed set; when none of these holds it classifies the profile fresh and
leaves the state untouched without invoking the package manager. -/
theorem ensureProfile_stale_iff (s : ProfileCheckState) (eff : RebuildEffect)
    (now : Nat) (u : Bool) :
    ((ensureProfileRun s eff now u).2 = true ↔
      s.profileExists = false
      ∨ effManifestMtime s > effProfileMtime s
      ∨ s.guixProfileMtime > effProfileMtime s
      ∨ ∃ p ∈ extraPackages, p ∉ s.installed)
    ∧ ((ensureProfileRun s eff now u).2 = false →
        ensureProfileRun s eff now u = (s, false)) := by
  constructor
  · rw [← profileIsStale_iff]
    unfold ensureProfileRun
    by_cases h : profileIsStale s <;> simp [h]
  · intro h2
    unfold ensureProfileRun at h2 ⊢
    by_cases h : profileIsStale s <;> simp [h] at h2 ⊢

/-- Witness for C1 at a fresh state: profile exists with mtime 10, manifest
and guix binary older, tini installed — no rebuild, state unchanged. -/
theorem ensureProfile_stale_iff_witness :
    ensureProfileRun
        { guixProfileMtime := 3
          profileExists := true
          profileMtime := 10
          manifestExists := true
          manifestMtime := 4
          installed := ["tini"] }
        { profileExistsAfter := true
          profileMtimeAfter := 0
          installedAfter := [] } 11 true
      = ({ guixProfileMtime := 3
           profileExists := true
           profileMtime := 10
           manifestExists := true
           manifestMtime := 4
           installed := ["tini"] }, false) :=
  (ensureProfile_stale_iff
    { guixProfileMtime := 3
      profileExists := true
      profileMtime := 10
      manifestExists := true
      manifestMtime := 4
      installed := ["tini"] }
    { profileExistsAfter := true
      profileMtimeAfter := 0
      installedAfter := [] } 11 true).2 (by decide)

/-- C7 counterexample.  The forced touch is wrapped in
`except PermissionError: pass` (workspace.py:367-372): when the caller does
not own the profile symlink, `os.utime` fails, the failure is swallowed,
and the mtime is not forced.  Concretely: a stale state (manifest mtime 6 >
profile mtime 5), a successful rebuild at time 20 whose external tool
leaves the symlink untouched (mtime stays 5), and denied utime — the
profile mtime is not set to the current time, the immediately following
`ensureProfile` classifies Stale again and re-invokes the rebuild,
contradicting the claim's unconditional no-loop guarantee. -/
theorem ensureProfile_utime_denied_loops :
    (ensureProfileRun
        { guixProfileMtime := 3
          profileExists := true
          profileMtime := 5
          manifestExists := true
          manifestMtime := 6
          installed := ["tini"] }
        { profileExistsAfter := true
          profileMtimeAfter := 5
          installedAfter := ["tini"] } 20 false).1.profileMtime ≠ 20
    ∧ profileIsStale (ensureProfileRun
        { guixProfileMtime := 3
          profileExists := true
          profileMtime := 5
          manifestExists := true
          manifestMtime := 6
          installed := ["tini"] }
        { profileExistsAfter := true
          profileMtimeAfter := 5
          installedAfter := ["tini"] } 20 false).1 = true
    ∧ (ensureProfileRun
        (ensureProfileRun
          { guixProfileMtime := 3
            profileExists := true
            profileMtime := 5
            manifestExists := true
            manifestMtime := 6
            installed := ["tini"] }
          { profileExistsAfter := true
            profileMtimeAfter := 5
            installedAfter := ["tini"] } 20 false).1
        { profileExistsAfter := true
          profileMtimeAfter := 5
          installedAfter := ["tini"] } 21 false).2 = true := by
  decide

/-- C7 amended.  After a successful rebuild in which the tool left the
profile artifact in place (possibly untouched) with the baseline packages
installed, *and* the forced `os.utime` is permitted (the caller owns the
profile; the swallowed `PermissionError` branch is not taken), the profile
mtime is forced to the current time `now`; hence, with the manifest, the
guix binary profile and the installed baseline packages unchanged, the
immediately following `ensureProfile` classifies the profile fresh and
performs no rebuild.  When utime is denied, the forced touch is skipped
and the no-loop guarantee can fail (see the counterexample). -/
theorem ensureProfile_idempotent (s : ProfileCheckState)
    (eff eff2 : RebuildEffect) (now now2 : Nat) (u2 : Bool)
    (hstale : profileIsStale s = true)
    (hexists : eff.profileExistsAfter = true)
    (hpkgs : haveExtraPackages eff.installedAfter = true)
    (hman : effManifestMtime s ≤ now)
    (hguix : s.guixProfileMtime ≤ now) :
    ((ensureProfileRun s eff now true).1.profileMtime = now
      ∧ (ensureProfileRun s eff now true).2 = true)
    ∧ profileIsStale (ensureProfileRun s eff now true).1 = false
    ∧ ensureProfileRun (ensureProfileRun s eff now true).1 eff2 now2 u2
        = ((ensureProfileRun s eff now true).1, false) := by
  have hrun : ensureProfileRun s eff now true
      = ({ s with
            profileExists := true
            profileMtime := now
            installed := eff.installedAfter }, true) := by
    unfold ensureProfileRun
    simp [hstale, hexists]
  have hfresh : profileIsStale ({ s with
      profileExists := true
      profileMtime := now
      installed := eff.installedAfter } : ProfileCheckState) = false := by
    unfold profileIsStale effManifestMtime effProfileMtime
    simp only [Bool.or_eq_false_iff, Bool.not_eq_true', Bool.not_eq_false]
    refine ⟨⟨⟨rfl, ?_⟩, ?_⟩, by simp [hpkgs]⟩
    · simp only [decide_eq_false_iff_not, not_lt]
      unfold effManifestMtime at hman
      simpa using hman
    · simp only [decide_eq_false_iff_not, not_lt]
      simpa using hguix
  rw [hrun]
  refine ⟨⟨rfl, rfl⟩, hfresh, ?_⟩
  unfold ensureProfileRun
  simp [hfresh]

/-- Witness for C7: a stale state (manifest newer than profile) rebuilt at
time 20 is fresh afterwards and a second run does nothing. -/
theorem ensureProfile_idempotent_witness :
    profileIsStale (ensureProfileRun
        { guixProfileMtime := 3
          profileExists := true
          profileMtime := 5
          manifestExists := true
          manifestMtime := 6
          installed := ["tini"] }
        { profileExistsAfter := true
          profileMtimeAfter := 5
          installedAfter := ["tini"] } 20 true).1 = false :=
  (ensureProfile_idempotent
    { guixProfileMtime := 3
      profileExists := true
      profileMtime := 5
      manifestExists := true
      manifestMtime := 6
      installed := ["tini"] }
    { profileExistsAfter := true
      profileMtimeAfter := 5
      installedAfter := ["tini"] }
    { profileExistsAfter := false
      profileMtimeAfter := 0
      installedAfter := [] } 20 21 false
    (by decide) (by decide) (by decide) (by decide) (by decide)).2.1

/-- C2.  Acquiring the softlock while the lock file exists fails with
`Busy` immediately (single attempt, state unchanged); acquiring while it
does not exist creates the file in the same atomic step and succeeds.
Consequently two acquisitions of the same path, serialized in either order
by the atomicity of the create-exclusive step, see exactly one success and
one `Busy`; and after the holder releases, a subsequent acquisition
succeeds. -/
theorem softlock_acquire_exclusive :
    (softlockAcquire true = (true, .busy)
      ∧ softlockAcquire false = (true, .acquired))
    ∧ ((softlockAcquire false).2 = .acquired
      ∧ (softlockAcquire (softlockAcquire false).1).2 = .busy)
    ∧ (softlockAcquire
        (softlockRelease
          { fileExists := (softlockAcquire false).1, dirGone := false }).1.fileExists).2
      = .acquired := by
  decide

/-- C8.  The release path of `softlock` runs on every exit path of the
guarded block (normal or raising), after it the lock file no longer
exists, and it raises nothing even when the lock file or its containing
directory was already removed by another actor (the hypothesis only rules
out the impossible world where the directory is gone but the file at its
path still exists). -/
theorem softlock_release_best_effort (w : LockWorld) (o : BodyOutcome)
    (h : w.dirGone = true → w.fileExists = false) :
    softlockExit w o = ((softlockRelease w).1, false, o)
    ∧ (softlockRelease w).1.fileExists = false
    ∧ (softlockRelease w).2 = false := by
  rcases w with ⟨fe, dg⟩
  cases fe <;> cases dg <;> cases o <;>
    simp_all [softlockExit, softlockRelease, unlinkAt]

/-- Witness for C8: the body raised and the directory is intact — release
still runs, deletes the lock file and raises nothing. -/
theorem softlock_release_best_effort_witness :
    softlockExit { fileExists := true, dirGone := false } .raised
      = ((softlockRelease { fileExists := true, dirGone := false }).1,
         false, .raised)
    ∧ (softlockRelease { fileExists := true, dirGone := false }).1.fileExists
      = false
    ∧ (softlockRelease { fileExists := true, dirGone := false }).2 = false :=
  softlock_release_best_effort { fileExists := true, dirGone := false }
    .raised (by decide)

/-- C4.  Flushing an unmutated metadata document performs zero filesystem
writes; every mutation operation (`__setitem__`, `__delitem__`, `update`,
`pop`) marks the document dirty; flushing a dirty document writes the whole
document once and clears the flag, so an immediately repeated flush writes
nothing. -/
theorem metadata_dirty_tracking (d : MDict) (k : String) (v : MVal)
    (kvs : List (String × MVal)) :
    (d.modified = false → writeMetadata d = (d, 0))
    ∧ (d.setItem k v).modified = true
    ∧ (d.delItem k).modified = true
    ∧ (d.update kvs).modified = true
    ∧ (d.pop k).2.modified = true
    ∧ (d.modified = true →
        writeMetadata d = ({ data := d.data, modified := false }, 1))
    ∧ writeMetadata (writeMetadata d).1 = ((writeMetadata d).1, 0) := by
  rcases d with ⟨data, m⟩
  cases m <;>
    simp [writeMetadata, MDict.setItem, MDict.delItem, MDict.update,
      MDict.pop]

/-- Witness for C4 on a concrete document: clean flush writes nothing,
mutation dirties, dirty flush writes once and a repeated flush writes
nothing. -/
theorem metadata_dirty_tracking_witness :
    writeMetadata { data := [("version", .n 1)], modified := false }
      = ({ data := [("version", .n 1)], modified := false }, 0)
    ∧ (MDict.setItem { data := [("version", .n 1)], modified := false }
        "name" (.s "x")).modified = true
    ∧ writeMetadata { data := [("version", .n 1)], modified := true }
      = ({ data := [("version", .n 1)], modified := false }, 1)
    ∧ writeMetadata
        (writeMetadata { data := [("version", .n 1)], modified := true }).1
      = ((writeMetadata
          { data := [("version", .n 1)], modified := true }).1, 0) := by
  refine ⟨?_, ?_, ?_, ?_⟩
  · exact (metadata_dirty_tracking
      { data := [("version", .n 1)], modified := false } "name" (.s "x")
      []).1 rfl
  · exact (metadata_dirty_tracking
      { data := [("version", .n 1)], modified := false } "name" (.s "x")
      []).2.1
  · exact ((metadata_dirty_tracking
      { data := [("version", .n 1)], modified := true } "name" (.s "x")
      []).2.2.2.2.2).1 rfl
  · exact ((metadata_dirty_tracking
      { data := [("version", .n 1)], modified := true } "name" (.s "x")
      []).2.2.2.2.2).2

/-- C10 counterexample.  With prior working directory `0` (still existing)
and workspace directory `1`, a body that raises leaves the process in the
workspace directory: `chdir` does not restore the prior working directory
on the exception exit path, because its `yield` is not protected by
`try`/`finally`. -/
theorem chdir_raise_no_restore :
    (chdirScope 0 1 .raised true).1 = 1
    ∧ (chdirScope 0 1 .raised true).1 ≠ 0 := by
  decide

/-- C10 amended.  `chdir` captures the prior working directory on entry
and restores it only on the normal exit path (swallowing the failure when
the prior directory no longer exists); when the body raises, the restore
code is skipped and the process stays in the workspace directory while the
exception propagates. -/
theorem chdir_restore_only_normal (cwd0 wsDir : Nat) (o : BodyOutcome)
    (oldStillExists : Bool) (hne : cwd0 ≠ wsDir) :
    ((chdirScope cwd0 wsDir o oldStillExists).1 = cwd0 ↔
      o = .normal ∧ oldStillExists = true)
    ∧ ((chdirScope cwd0 wsDir o oldStillExists).2 = true ↔ o = .raised) := by
  cases o <;> cases oldStillExists <;>
    simp_all [chdirScope] <;> omega

/-- Witness for C10 amended: normal exit with the prior directory intact
restores it. -/
theorem chdir_restore_only_normal_witness :
    ((chdirScope 0 1 .normal true).1 = 0 ↔
      BodyOutcome.normal = .normal ∧ true = true)
    ∧ ((chdirScope 0 1 .normal true).2 = true ↔
      BodyOutcome.normal = .raised) :=
  chdir_restore_only_normal 0 1 .normal true (by decide)

/-- C5.  When the rebuild invocation fails, `decodeFailure` classifies its
stderr: lines naming failed derivation store paths yield
`WorkspacePackageBuildFailure` carrying exactly the package names extracted
from those paths; otherwise the failed-to-load-manifest diagnostic yields
`WorkspaceBroken`; in every other case the original `ExecutionFailed` is
re-raised unmodified.  Every branch raises — the failure is never
swallowed. -/
theorem decodeFailure_classification (stderr : String)
    (names : List String) :
    (buildFailedDrvs stderr ≠ [] →
      (buildFailedDrvs stderr).mapM storePathToPackageName = some names →
      decodeFailure stderr = .packageBuildFailure names)
    ∧ (buildFailedDrvs stderr = [] →
      containsSub manifestLoadErr stderr.data = true →
      decodeFailure stderr = .broken)
    ∧ (buildFailedDrvs stderr = [] →
      containsSub manifestLoadErr stderr.data = false →
      decodeFailure stderr = .reraise) := by
  rcases hd : buildFailedDrvs stderr with _ | ⟨d, ds⟩
  · refine ⟨fun hne => absurd rfl hne, fun _ hc => ?_, fun _ hc => ?_⟩
    · simp [decodeFailure, hd, hc]
    · simp [decodeFailure, hd, hc]
  · refine ⟨fun _ hm => ?_, fun he => ?_, fun he => ?_⟩
    · simp only [decodeFailure, hd]
      rw [hm]
    · exact absurd he (List.cons_ne_nil d ds)
    · exact absurd he (List.cons_ne_nil d ds)

set_option maxRecDepth 8192 in
/-- Witness for C5: a concrete stderr naming failed derivations for `foo`
and `bar` is classified as a package-build failure carrying exactly
`["foo", "bar"]`. -/
theorem decodeFailure_classification_witness :
    decodeFailure exFailStderr
      = .packageBuildFailure ["foo", "bar"] :=
  (decodeFailure_classification exFailStderr ["foo", "bar"]).1
    (by decide) (by decide)

/-- C6 counterexample.  A metadata file that is present, statable and
readable but empty parses as `None`; `Workspace.open` then raises the
uncaught `TypeError` from `dict.update (None)`, not `InvalidWorkspace`. -/
theorem open_empty_metadata_type_error :
    openWorkspace
        { metaFileExists := true
          statPermError := false
          readPermError := false
          parsed := .parsedNone } "fresh" 0 "alice"
      = .error .typeErr
    ∧ openWorkspace
        { metaFileExists := true
          statPermError := false
          readPermError := false
          parsed := .parsedNone } "fresh" 0 "alice"
      ≠ .error .invalidWorkspace := by
  refine ⟨rfl, fun h => ?_⟩
  simp [openWorkspace] at h

/-- C6 amended.  `Workspace.open` succeeds iff the metadata file exists,
is statable and readable, and parses as either a YAML mapping or a YAML
sequence of key/value pairs (`MutableMapping.update` consumes both; an
empty mapping or sequence yields a workspace carrying only the fresh
defaults).  A missing file, a stat permission failure, and a YAML parse
error each raise `InvalidWorkspace`; but a statable yet unreadable file
raises an uncaught `PermissionError`, and a parse `update` cannot consume
— `None` from an empty file, a scalar, or a sequence with a non-pair
element — raises an uncaught `TypeError`/`ValueError`.  None of the latter
is `InvalidWorkspace`. -/
theorem open_classification (inp : OpenInput) (freshId : String)
    (stamp : Nat) (creator : String) :
    ((∃ d, openWorkspace inp freshId stamp creator = .ok d) ↔
      inp.statPermError = false ∧ inp.metaFileExists = true
      ∧ inp.readPermError = false
      ∧ ((∃ kvs, inp.parsed = .mapping kvs)
        ∨ (∃ kvs, inp.parsed = .pairSeq kvs)))
    ∧ (inp.statPermError = true →
        openWorkspace inp freshId stamp creator = .error .invalidWorkspace)
    ∧ (inp.statPermError = false → inp.metaFileExists = false →
        openWorkspace inp freshId stamp creator = .error .invalidWorkspace)
    ∧ (inp.statPermError = false → inp.metaFileExists = true →
        inp.readPermError = false → inp.parsed = .yamlError →
        openWorkspace inp freshId stamp creator = .error .invalidWorkspace)
    ∧ (inp.statPermError = false → inp.metaFileExists = true →
        inp.readPermError = true →
        openWorkspace inp freshId stamp creator = .error .permError)
    ∧ (inp.statPermError = false → inp.metaFileExists = true →
        inp.readPermError = false → inp.parsed = .parsedNone →
        openWorkspace inp freshId stamp creator = .error .typeErr)
    ∧ (inp.statPermError = false → inp.metaFileExists = true →
        inp.readPermError = false → inp.parsed = .badIterable →
        openWorkspace inp freshId stamp creator = .error .typeErr) := by
  rcases inp with ⟨mfe, spe, rpe, parsed⟩
  cases spe <;> cases mfe <;> cases rpe <;> cases parsed <;>
    simp_all [openWorkspace]

/-- Witness for C6 amended: a malformed (YAML-error) metadata file raises
`InvalidWorkspace`, and a file parsing as the pair sequence
`- [name, x]` opens successfully. -/
theorem open_classification_witness :
    openWorkspace
        { metaFileExists := true
          statPermError := false
          readPermError := false
          parsed := .yamlError } "fresh" 0 "alice"
      = .error .invalidWorkspace
    ∧ (∃ d, openWorkspace
        { metaFileExists := true
          statPermError := false
          readPermError := false
          parsed := .pairSeq [("name", .s "x")] } "fresh" 0 "alice"
      = .ok d) := by
  constructor
  · exact (open_classification
      { metaFileExists := true
        statPermError := false
        readPermError := false
        parsed := .yamlError } "fresh" 0 "alice").2.2.2.1
      rfl rfl rfl rfl
  · exact (open_classification
      { metaFileExists := true
        statPermError := false
        readPermError := false
        parsed := .pairSeq [("name", .s "x")] } "fresh" 0 "alice").1.2
      ⟨rfl, rfl, rfl, Or.inr ⟨[("name", .s "x")], rfl⟩⟩

/-- C3 counterexample.  `Workspace.copy` (workspace.py) re-opens the
rsync-copied metadata verbatim: on a concrete source document the copy's
`_id` equals the source's `_id` instead of differing. -/
theorem copy_keeps_source_id :
    lookupKey
        (wsCopyMeta
          [("version", .n 1), ("_id", .s "kabab-dizuf"), ("name", .s "proj")]
          "lunoh-sagud" 7 "alice") "_id"
      = lookupKey
        [("version", .n 1), ("_id", .s "kabab-dizuf"), ("name", .s "proj")]
        "_id"
    ∧ lookupKey
        (wsCopyMeta
          [("version", .n 1), ("_id", .s "kabab-dizuf"), ("name", .s "proj")]
          "lunoh-sagud" 7 "alice") "_id"
      = some (.s "kabab-dizuf") := by
  decide

/-- C3 amended.  The CLI copy command `docopy` writes a destination
document whose `_id` is the freshly drawn id — hence different from the
source's whenever the draw differs — and preserves every key and value of
the source document other than `_id` unchanged; the library-level
`Workspace.copy` instead preserves the source metadata verbatim, `_id`
included. -/
theorem docopy_reassigns_id (srcMeta : List (String × MVal))
    (freshCopyId initFreshId : String) (stamp : Nat) (creator : String)
    (hnd : (srcMeta.map Prod.fst).Nodup) :
    lookupKey (docopyMeta srcMeta freshCopyId stamp creator initFreshId)
        "_id"
      = some (.s freshCopyId)
    ∧ (∀ k, k ≠ "_id" → k ∈ srcMeta.map Prod.fst →
        lookupKey (docopyMeta srcMeta freshCopyId stamp creator initFreshId)
            k
          = lookupKey srcMeta k)
    ∧ (∀ srcId, lookupKey srcMeta "_id" = some (.s srcId) →
        freshCopyId ≠ srcId →
        lookupKey (docopyMeta srcMeta freshCopyId stamp creator initFreshId)
            "_id"
          ≠ lookupKey srcMeta "_id")
    ∧ (∀ k, k ∈ srcMeta.map Prod.fst →
        lookupKey (wsCopyMeta srcMeta freshCopyId stamp creator) k
          = lookupKey srcMeta k) := by
  have hndm : ((listSet srcMeta "_id" (.s freshCopyId)).map Prod.fst).Nodup :=
    nodup_keys_listSet _ _ _ hnd
  have hbase : (([("created", MVal.n stamp), ("modified", MVal.n stamp),
      ("creator", MVal.s creator)].map Prod.fst).Nodup) := by
    simp only [List.map_cons, List.map_nil]
    decide
  have hndm2 : ((listUpdate
      [("created", MVal.n stamp), ("modified", MVal.n stamp),
        ("creator", MVal.s creator)]
      (listSet srcMeta "_id" (.s freshCopyId))).map Prod.fst).Nodup :=
    nodup_keys_listUpdate _ _ hbase
  have chain : ∀ k,
      k ∈ (listSet srcMeta "_id" (.s freshCopyId)).map Prod.fst →
      lookupKey (docopyMeta srcMeta freshCopyId stamp creator initFreshId) k
        = lookupKey (listSet srcMeta "_id" (.s freshCopyId)) k := by
    intro k hk
    unfold docopyMeta
    rw [lookupKey_listUpdate_mem _ _ _ hndm2
        (mem_keys_listUpdate_right _ _ _ hk),
      lookupKey_listUpdate_mem _ _ _ hndm hk]
  have hid : lookupKey
      (docopyMeta srcMeta freshCopyId stamp creator initFreshId) "_id"
      = some (.s freshCopyId) := by
    rw [chain "_id" ((mem_keys_listSet _ _ _ _).2 (Or.inl rfl)),
      lookupKey_listSet_self]
  refine ⟨hid, fun k hk hmem => ?_, fun srcId hsrc hne => ?_,
    fun k hk => ?_⟩
  · rw [chain k ((mem_keys_listSet _ _ _ _).2 (Or.inr hmem)),
      lookupKey_listSet_ne _ _ _ _ hk]
  · rw [hid, hsrc]
    intro hc
    exact hne (by injection hc with h2; injection h2)
  · unfold wsCopyMeta
    exact lookupKey_listUpdate_mem _ _ _ hnd hk

/-- Witness for C3 amended, on a concrete source document: the written
`_id` is the fresh one, the `name` key is preserved, and the `_id` value
differs from the source's. -/
theorem docopy_reassigns_id_witness :
    lookupKey
        (docopyMeta
          [("version", .n 1), ("_id", .s "kabab-dizuf"), ("name", .s "proj")]
          "lunoh-sagud" 9 "bob" "init-id") "_id"
      = some (.s "lunoh-sagud")
    ∧ lookupKey
        (docopyMeta
          [("version", .n 1), ("_id", .s "kabab-dizuf"), ("name", .s "proj")]
          "lunoh-sagud" 9 "bob" "init-id") "name"
      = lookupKey
        [("version", .n 1), ("_id", .s "kabab-dizuf"), ("name", .s "proj")]
        "name"
    ∧ lookupKey
        (docopyMeta
          [("version", .n 1), ("_id", .s "kabab-dizuf"), ("name", .s "proj")]
          "lunoh-sagud" 9 "bob" "init-id") "_id"
      ≠ lookupKey
        [("version", .n 1), ("_id", .s "kabab-dizuf"), ("name", .s "proj")]
        "_id" := by
  have h := docopy_reassigns_id
    [("version", .n 1), ("_id", .s "kabab-dizuf"), ("name", .s "proj")]
    "lunoh-sagud" "init-id" 9 "bob" (by decide)
  exact ⟨h.1, h.2.1 "name" (by decide) (by decide),
    h.2.2.1 "kabab-dizuf" (by decide) (by decide)⟩

/-- C9 counterexample.  An ACL carrying a world entry with bits `r` and a
named-group entry `g1` with bits `w`: the snapshot reports `g1 ↦ "w"` and
the world bits separately under `other`; no entry reports the union
`{r, w}` for `g1`, contradicting the claimed additive folding. -/
theorem getPermissions_no_folding :
    (getPermissions 0 0 (fun _ => "owner") (fun _ => "g1")
        [{ tag := .otherTag, permset := "r--" },
         { tag := .namedGroup 5, permset := "-w-" }]).aclGroup
      = [("g1", .s "w")]
    ∧ (getPermissions 0 0 (fun _ => "owner") (fun _ => "g1")
        [{ tag := .otherTag, permset := "r--" },
         { tag := .namedGroup 5, permset := "-w-" }]).other = "r"
    ∧ ("g1", MVal.s "rw") ∉ (getPermissions 0 0 (fun _ => "owner")
        (fun _ => "g1")
        [{ tag := .otherTag, permset := "r--" },
         { tag := .namedGroup 5, permset := "-w-" }]).aclGroup
    ∧ ("g1", MVal.s "wr") ∉ (getPermissions 0 0 (fun _ => "owner")
        (fun _ => "g1")
        [{ tag := .otherTag, permset := "r--" },
         { tag := .namedGroup 5, permset := "-w-" }]).aclGroup := by
  decide

/-- C9 amended.  The local-path permission snapshot reports each
principal's explicit ACL bits verbatim in its own bucket and the
`other`/world entry's bits only in the separate `other` field: the
principal buckets are unchanged when the world entry's bits change, a
named-group entry contributes exactly its own stripped permset to its
bucket, and `other` is the stripped permset of the world entry. -/
theorem getPermissions_other_separate (ownerUid ownerGid : Nat)
    (uidName gidName : Nat → String) (es : List AclEntry) (x y : String)
    (q : Nat) (ps : String) :
    ((getPermissions ownerUid ownerGid uidName gidName
        (es ++ [{ tag := .otherTag, permset := x }])).user
      = (getPermissions ownerUid ownerGid uidName gidName
        (es ++ [{ tag := .otherTag, permset := y }])).user
    ∧ (getPermissions ownerUid ownerGid uidName gidName
        (es ++ [{ tag := .otherTag, permset := x }])).group
      = (getPermissions ownerUid ownerGid uidName gidName
        (es ++ [{ tag := .otherTag, permset := y }])).group
    ∧ (getPermissions ownerUid ownerGid uidName gidName
        (es ++ [{ tag := .otherTag, permset := x }])).aclUser
      = (getPermissions ownerUid ownerGid uidName gidName
        (es ++ [{ tag := .otherTag, permset := y }])).aclUser
    ∧ (getPermissions ownerUid ownerGid uidName gidName
        (es ++ [{ tag := .otherTag, permset := x }])).aclGroup
      = (getPermissions ownerUid ownerGid uidName gidName
        (es ++ [{ tag := .otherTag, permset := y }])).aclGroup)
    ∧ (getPermissions ownerUid ownerGid uidName gidName
        (es ++ [{ tag := .otherTag, permset := x }])).other = stripDashes x
    ∧ (getPermissions ownerUid ownerGid uidName gidName
        (es ++ [{ tag := .namedGroup q, permset := ps }])).aclGroup
      = listSet
          (getPermissions ownerUid ownerGid uidName gidName es).aclGroup
          (gidName q) (.s (stripDashes ps)) := by
  simp [getPermissions, List.foldl_append, getPermissionsStep]
